import Mathlib

/-!
Verification of the retry and reconnect core of the go-reqws client library.

The development shallowly embeds the two stateful components of the
repository:

* the retry engine of retry.go (functions shouldRetry and executeWithRetry);
* the WebSocket session and reconnect supervisor of the WebSocket source file
  (functions WebSocketStream and WebSocketStreamWithReconnect).

Durations (Go time.Duration values and the float64 multiplier) are modelled
over the rationals; the backoff update
  delay = time.Duration(float64(delay) * multiplier);
  if delay > maxDelay { delay = maxDelay }
is translated literally as an if-clamp over rational arithmetic.  The
environment supplies the outcome of each network attempt and the state of the
cancellation context at every point where the Go code consults it; the
embedding then replays the exact control flow of the source and records an
event trace (attempts issued, response bodies closed, backoff waits,
sessions started, reconnect callbacks, channel operations).  Logging calls
are not recorded: the source guards every such call behind a nil check on the
optional logger and they alter no control flow or data.
-/

namespace Reqws

/-- An HTTP response as far as the retry logic of retry.go inspects it:
its status code (a Go int) and whether it carries a non-nil body. -/
structure HttpResponse where
  statusCode : Int
  hasBody : Bool
deriving DecidableEq

/-- Translation of shouldRetry (retry.go): retry on a non-nil error, on a
missing response, on a status of at least 500, and on status 429; do not
retry on any other status.  The error type is opaque. -/
def shouldRetry {E : Type} (resp : Option HttpResponse) (err : Option E) : Bool :=
  if err.isSome then true
  else
    match resp with
    | none => true
    | some r =>
      if 500 ≤ r.statusCode then true
      else if r.statusCode = 429 then true
      else if 400 ≤ r.statusCode ∧ r.statusCode < 500 then false
      else false

/-- The inline success test of executeWithRetry (retry.go):
err == nil && resp != nil && 200 <= resp.StatusCode && resp.StatusCode < 300. -/
def isSuccess {E : Type} (resp : Option HttpResponse) (err : Option E) : Bool :=
  err.isNone &&
    match resp with
    | some r => decide (200 ≤ r.statusCode) && decide (r.statusCode < 300)
    | none => false

/-- RetryConfig of retry.go.  MaxRetries is the number of retries beyond the
first attempt; the three remaining fields drive the exponential backoff. -/
structure RetryConfig where
  maxRetries : Nat
  initialDelay : ℚ
  maxDelay : ℚ
  multiplier : ℚ

/-- The backoff update performed inside the timer branch of the select in
executeWithRetry: multiply the delay, then clamp it at maxDelay. -/
def nextDelay (cfg : RetryConfig) (d : ℚ) : ℚ :=
  if cfg.maxDelay < d * cfg.multiplier then cfg.maxDelay else d * cfg.multiplier

/-- Environment of one executeWithRetry call: the outcome each invocation of
buildAndExecuteRequest would produce, and the state of the cancellation
context at the two places the loop consults it (the check at the top of
iteration i, and the select racing the backoff sleep after attempt i).
ctxErr is the value ctx.Err() yields once the context is cancelled. -/
structure RetryEnv (E : Type) where
  attempt : Nat → Option HttpResponse × Option E
  ctxTop : Nat → Bool
  ctxSleep : Nat → Bool
  ctxErr : E

/-- Observable events of one executeWithRetry call, in program order. -/
inductive REvent where
  | attemptMade (i : Nat)
  | bodyClosed (i : Nat)
  | slept (d : ℚ)
deriving DecidableEq

/-- The body-close step of executeWithRetry: if resp != nil and
resp.Body != nil, the body of attempt i is closed. -/
def closeEvs (i : Nat) (resp : Option HttpResponse) : List REvent :=
  match resp with
  | some r => if r.hasBody = true then [REvent.bodyClosed i] else []
  | none => []

/-- The retry loop of executeWithRetry (retry.go).  The fuel argument counts
the iterations the Go loop guard (attempt <= MaxRetries) still permits, so
the top-level call uses fuel = maxRetries + 1 and the base case is the code
after the loop: return (lastResp, lastErr) if lastErr is non-nil, otherwise
(lastResp, nil).  Each iteration checks the context, issues the attempt,
short-circuits on success, returns non-retryable outcomes as they are,
closes the rejected body, breaks without sleeping when attempt >= MaxRetries,
then sleeps racing the context and advances the delay. -/
def retryLoop {E : Type} (env : RetryEnv E) (cfg : RetryConfig) :
    Nat → ℚ → Option HttpResponse → Option E → Nat →
    List REvent × (Option HttpResponse × Option E)
  | _, _, lastResp, lastErr, 0 =>
      ([], if lastErr.isSome then (lastResp, lastErr) else (lastResp, none))
  | a, delay, _, _, fuel + 1 =>
      if env.ctxTop a = true then ([], (none, some env.ctxErr))
      else
        let o := env.attempt a
        if isSuccess o.1 o.2 = true then ([REvent.attemptMade a], (o.1, none))
        else if shouldRetry o.1 o.2 = false then ([REvent.attemptMade a], o)
        else
          if cfg.maxRetries ≤ a then
            (REvent.attemptMade a :: closeEvs a o.1,
              if o.2.isSome then (o.1, o.2) else (o.1, none))
          else if env.ctxSleep a = true then
            (REvent.attemptMade a :: closeEvs a o.1, (none, some env.ctxErr))
          else
            let next := retryLoop env cfg (a + 1) (nextDelay cfg delay) o.1 o.2 fuel
            (REvent.attemptMade a :: (closeEvs a o.1 ++ REvent.slept delay :: next.1),
              next.2)

/-- executeWithRetry of retry.go.  Without a retry configuration the request
executes exactly once; with one, the bounded backoff loop runs, starting at
attempt 0 with the configured initial delay and no stored outcome. -/
def executeWithRetry {E : Type} (env : RetryEnv E) (cfg : Option RetryConfig) :
    List REvent × (Option HttpResponse × Option E) :=
  match cfg with
  | none => ([REvent.attemptMade 0], env.attempt 0)
  | some c => retryLoop env c 0 c.initialDelay none none (c.maxRetries + 1)

/-- Backoff durations recorded in a trace, in order. -/
def sleeps (evs : List REvent) : List ℚ :=
  evs.filterMap fun e =>
    match e with
    | REvent.slept d => some d
    | _ => none

/-- Indices of the attempts issued in a trace, in order. -/
def attemptIdxs (evs : List REvent) : List Nat :=
  evs.filterMap fun e =>
    match e with
    | REvent.attemptMade i => some i
    | _ => none

/-- The ideal backoff schedule: the i-th delay value held by the executor,
delay 0 being the configured initial delay and each successor the clamped
multiple of its predecessor. -/
def delaySeq (cfg : RetryConfig) : Nat → ℚ
  | 0 => cfg.initialDelay
  | i + 1 => nextDelay cfg (delaySeq cfg i)

/-- The delay values a run starting from delay d can sleep for, k steps long. -/
def expDelays (cfg : RetryConfig) : ℚ → Nat → List ℚ
  | _, 0 => []
  | d, k + 1 => d :: expDelays cfg (nextDelay cfg d) k

theorem shouldRetry_true_not_success {E : Type}
    (resp : Option HttpResponse) (err : Option E)
    (h : shouldRetry resp err = true) : isSuccess resp err = false := by
  cases err with
  | some e => simp [isSuccess]
  | none =>
    cases resp with
    | none => simp [isSuccess]
    | some r =>
      simp only [shouldRetry, Option.isSome_none, Bool.false_eq_true, if_false] at h
      simp only [isSuccess, Option.isNone_none, Bool.true_and,
        Bool.and_eq_false_imp, decide_eq_true_eq, decide_eq_false_iff_not, not_lt]
      split_ifs at h with h1 h2 h3
      · intro _; omega
      · intro _; omega

theorem sleeps_nil : sleeps [] = [] := rfl

theorem sleeps_cons (e : REvent) (l : List REvent) :
    sleeps (e :: l) =
      (match e with | REvent.slept d => some d | _ => none).toList ++ sleeps l := by
  cases e <;> simp [sleeps]

theorem sleeps_append (l₁ l₂ : List REvent) :
    sleeps (l₁ ++ l₂) = sleeps l₁ ++ sleeps l₂ := by
  simp [sleeps]

theorem sleeps_closeEvs (i : Nat) (resp : Option HttpResponse) :
    sleeps (closeEvs i resp) = [] := by
  cases resp with
  | none => rfl
  | some r =>
    by_cases h : r.hasBody = true <;> simp [closeEvs, h, sleeps]

theorem attemptIdxs_closeEvs (i : Nat) (resp : Option HttpResponse) :
    attemptIdxs (closeEvs i resp) = [] := by
  cases resp with
  | none => rfl
  | some r =>
    by_cases h : r.hasBody = true <;> simp [closeEvs, h, attemptIdxs]

theorem attemptIdxs_append (l₁ l₂ : List REvent) :
    attemptIdxs (l₁ ++ l₂) = attemptIdxs l₁ ++ attemptIdxs l₂ := by
  simp [attemptIdxs]

theorem attemptIdxs_cons_made (i : Nat) (l : List REvent) :
    attemptIdxs (REvent.attemptMade i :: l) = i :: attemptIdxs l := by
  simp [attemptIdxs]

theorem attemptIdxs_cons_slept (d : ℚ) (l : List REvent) :
    attemptIdxs (REvent.slept d :: l) = attemptIdxs l := by
  simp [attemptIdxs]

theorem nextDelay_eq_min (cfg : RetryConfig) (d : ℚ) :
    nextDelay cfg d = min (d * cfg.multiplier) cfg.maxDelay := by
  simp only [nextDelay, min_def]
  split_ifs with h1 h2 <;> first | rfl | linarith

theorem delaySeq_le (cfg : RetryConfig) (h : cfg.initialDelay ≤ cfg.maxDelay) :
    ∀ i, delaySeq cfg i ≤ cfg.maxDelay
  | 0 => h
  | i + 1 => by
      simp only [delaySeq, nextDelay]
      split_ifs with hlt
      · exact le_refl _
      · exact le_of_not_lt hlt

theorem expDelays_delaySeq (cfg : RetryConfig) :
    ∀ (k i : Nat), expDelays cfg (delaySeq cfg i) k =
      (List.range k).map (fun j => delaySeq cfg (i + j)) := by
  intro k
  induction k with
  | zero => intro i; rfl
  | succ k ih =>
    intro i
    have h1 : nextDelay cfg (delaySeq cfg i) = delaySeq cfg (i + 1) := rfl
    rw [expDelays, h1, ih (i + 1), List.range_succ_eq_map, List.map_cons, List.map_map]
    refine congrArg₂ _ (by simp) ?_
    refine List.map_congr_left ?_
    intro j _
    simp only [Function.comp_apply]
    refine congrArg _ (by omega)

theorem retryLoop_eq_ctxTop {E : Type} (env : RetryEnv E) (cfg : RetryConfig)
    (a : Nat) (d : ℚ) (lR : Option HttpResponse) (lE : Option E) (fuel : Nat)
    (h : env.ctxTop a = true) :
    retryLoop env cfg a d lR lE (fuel + 1) = ([], (none, some env.ctxErr)) := by
  simp [retryLoop, h]

theorem retryLoop_eq_success {E : Type} (env : RetryEnv E) (cfg : RetryConfig)
    (a : Nat) (d : ℚ) (lR : Option HttpResponse) (lE : Option E) (fuel : Nat)
    (hc : env.ctxTop a = false)
    (hsu : isSuccess (env.attempt a).1 (env.attempt a).2 = true) :
    retryLoop env cfg a d lR lE (fuel + 1) =
      ([REvent.attemptMade a], ((env.attempt a).1, none)) := by
  simp [retryLoop, hc, hsu]

theorem retryLoop_eq_noretry {E : Type} (env : RetryEnv E) (cfg : RetryConfig)
    (a : Nat) (d : ℚ) (lR : Option HttpResponse) (lE : Option E) (fuel : Nat)
    (hc : env.ctxTop a = false)
    (hsu : isSuccess (env.attempt a).1 (env.attempt a).2 = false)
    (hnr : shouldRetry (env.attempt a).1 (env.attempt a).2 = false) :
    retryLoop env cfg a d lR lE (fuel + 1) =
      ([REvent.attemptMade a], env.attempt a) := by
  simp [retryLoop, hc, hsu, hnr]

theorem retryLoop_eq_break {E : Type} (env : RetryEnv E) (cfg : RetryConfig)
    (a : Nat) (d : ℚ) (lR : Option HttpResponse) (lE : Option E) (fuel : Nat)
    (hc : env.ctxTop a = false)
    (hr : shouldRetry (env.attempt a).1 (env.attempt a).2 = true)
    (hge : cfg.maxRetries ≤ a) :
    retryLoop env cfg a d lR lE (fuel + 1) =
      (REvent.attemptMade a :: closeEvs a (env.attempt a).1, env.attempt a) := by
  have hns := shouldRetry_true_not_success _ _ hr
  simp only [retryLoop]
  rw [if_neg (by simp [hc]), if_neg (by simp [hns]), if_neg (by simp [hr]), if_pos hge]
  cases h2 : (env.attempt a).2 <;> simp [h2, Prod.ext_iff]

theorem retryLoop_eq_cancelSleep {E : Type} (env : RetryEnv E) (cfg : RetryConfig)
    (a : Nat) (d : ℚ) (lR : Option HttpResponse) (lE : Option E) (fuel : Nat)
    (hc : env.ctxTop a = false)
    (hr : shouldRetry (env.attempt a).1 (env.attempt a).2 = true)
    (hlt : a < cfg.maxRetries)
    (hs : env.ctxSleep a = true) :
    retryLoop env cfg a d lR lE (fuel + 1) =
      (REvent.attemptMade a :: closeEvs a (env.attempt a).1,
        (none, some env.ctxErr)) := by
  have hns := shouldRetry_true_not_success _ _ hr
  simp [retryLoop, hc, hns, hr, Nat.not_le.mpr hlt, hs]

theorem retryLoop_eq_step {E : Type} (env : RetryEnv E) (cfg : RetryConfig)
    (a : Nat) (d : ℚ) (lR : Option HttpResponse) (lE : Option E) (fuel : Nat)
    (hc : env.ctxTop a = false)
    (hr : shouldRetry (env.attempt a).1 (env.attempt a).2 = true)
    (hlt : a < cfg.maxRetries)
    (hs : env.ctxSleep a = false) :
    retryLoop env cfg a d lR lE (fuel + 1) =
      (REvent.attemptMade a :: (closeEvs a (env.attempt a).1 ++ REvent.slept d ::
          (retryLoop env cfg (a + 1) (nextDelay cfg d)
            (env.attempt a).1 (env.attempt a).2 fuel).1),
        (retryLoop env cfg (a + 1) (nextDelay cfg d)
          (env.attempt a).1 (env.attempt a).2 fuel).2) := by
  have hns := shouldRetry_true_not_success _ _ hr
  simp [retryLoop, hc, hns, hr, Nat.not_le.mpr hlt, hs]

theorem retryLoop_sleeps {E : Type} (env : RetryEnv E) (cfg : RetryConfig) :
    ∀ (fuel a : Nat) (d : ℚ) (lR : Option HttpResponse) (lE : Option E),
      a + fuel = cfg.maxRetries + 1 →
      ∃ k, k ≤ fuel - 1 ∧ sleeps (retryLoop env cfg a d lR lE fuel).1 = expDelays cfg d k := by
  intro fuel
  induction fuel with
  | zero =>
    intro a d lR lE _
    exact ⟨0, Nat.le_refl 0, rfl⟩
  | succ fuel ih =>
    intro a d lR lE hinv
    by_cases hc : env.ctxTop a = true
    · exact ⟨0, by omega, by rw [retryLoop_eq_ctxTop env cfg a d lR lE fuel hc]; rfl⟩
    rw [Bool.not_eq_true] at hc
    by_cases hsu : isSuccess (env.attempt a).1 (env.attempt a).2 = true
    · exact ⟨0, by omega, by rw [retryLoop_eq_success env cfg a d lR lE fuel hc hsu]; rfl⟩
    rw [Bool.not_eq_true] at hsu
    by_cases hnr : shouldRetry (env.attempt a).1 (env.attempt a).2 = false
    · exact ⟨0, by omega, by rw [retryLoop_eq_noretry env cfg a d lR lE fuel hc hsu hnr]; rfl⟩
    rw [Bool.not_eq_false] at hnr
    by_cases hge : cfg.maxRetries ≤ a
    · refine ⟨0, by omega, ?_⟩
      rw [retryLoop_eq_break env cfg a d lR lE fuel hc hnr hge]
      simp [sleeps_cons, sleeps_closeEvs, expDelays]
    have hlt : a < cfg.maxRetries := by omega
    by_cases hs : env.ctxSleep a = true
    · refine ⟨0, by omega, ?_⟩
      rw [retryLoop_eq_cancelSleep env cfg a d lR lE fuel hc hnr hlt hs]
      simp [sleeps_cons, sleeps_closeEvs, expDelays]
    rw [Bool.not_eq_true] at hs
    obtain ⟨k, hk, hsl⟩ :=
      ih (a + 1) (nextDelay cfg d) (env.attempt a).1 (env.attempt a).2 (by omega)
    refine ⟨k + 1, by omega, ?_⟩
    rw [retryLoop_eq_step env cfg a d lR lE fuel hc hnr hlt hs]
    simp [sleeps_cons, sleeps_append, sleeps_closeEvs, hsl, expDelays]

theorem retryLoop_attempts_le {E : Type} (env : RetryEnv E) (cfg : RetryConfig) :
    ∀ (fuel a : Nat) (d : ℚ) (lR : Option HttpResponse) (lE : Option E),
      (attemptIdxs (retryLoop env cfg a d lR lE fuel).1).length ≤ fuel := by
  intro fuel
  induction fuel with
  | zero =>
    intro a d lR lE
    simp [retryLoop, attemptIdxs]
  | succ fuel ih =>
    intro a d lR lE
    by_cases hc : env.ctxTop a = true
    · rw [retryLoop_eq_ctxTop env cfg a d lR lE fuel hc]; simp [attemptIdxs]
    rw [Bool.not_eq_true] at hc
    by_cases hsu : isSuccess (env.attempt a).1 (env.attempt a).2 = true
    · rw [retryLoop_eq_success env cfg a d lR lE fuel hc hsu]; simp [attemptIdxs]
    rw [Bool.not_eq_true] at hsu
    by_cases hnr : shouldRetry (env.attempt a).1 (env.attempt a).2 = false
    · rw [retryLoop_eq_noretry env cfg a d lR lE fuel hc hsu hnr]; simp [attemptIdxs]
    rw [Bool.not_eq_false] at hnr
    by_cases hge : cfg.maxRetries ≤ a
    · rw [retryLoop_eq_break env cfg a d lR lE fuel hc hnr hge]
      simp [attemptIdxs_cons_made, attemptIdxs_closeEvs]
    have hlt : a < cfg.maxRetries := by omega
    by_cases hs : env.ctxSleep a = true
    · rw [retryLoop_eq_cancelSleep env cfg a d lR lE fuel hc hnr hlt hs]
      simp [attemptIdxs_cons_made, attemptIdxs_closeEvs]
    rw [Bool.not_eq_true] at hs
    have hrec := ih (a + 1) (nextDelay cfg d) (env.attempt a).1 (env.attempt a).2
    rw [retryLoop_eq_step env cfg a d lR lE fuel hc hnr hlt hs]
    simp only [attemptIdxs_cons_made, attemptIdxs_append, attemptIdxs_closeEvs,
      attemptIdxs_cons_slept, List.length_cons, List.nil_append]
    omega

theorem retryLoop_exhaust {E : Type} (env : RetryEnv E) (cfg : RetryConfig) :
    ∀ (fuel a : Nat) (d : ℚ) (lR : Option HttpResponse) (lE : Option E),
      a + fuel = cfg.maxRetries + 1 → 0 < fuel →
      (∀ i, a ≤ i → i ≤ cfg.maxRetries → env.ctxTop i = false) →
      (∀ i, a ≤ i → i < cfg.maxRetries → env.ctxSleep i = false) →
      (∀ i, a ≤ i → i ≤ cfg.maxRetries →
        shouldRetry (env.attempt i).1 (env.attempt i).2 = true) →
      (retryLoop env cfg a d lR lE fuel).2 = env.attempt cfg.maxRetries ∧
      (∀ i r, a ≤ i → i ≤ cfg.maxRetries → (env.attempt i).1 = some r →
        r.hasBody = true →
        REvent.bodyClosed i ∈ (retryLoop env cfg a d lR lE fuel).1) := by
  intro fuel
  induction fuel with
  | zero => intro a d lR lE hinv hpos; omega
  | succ fuel ih =>
    intro a d lR lE hinv _ hTop hSleep hRetry
    have ha : a ≤ cfg.maxRetries := by omega
    have hc : env.ctxTop a = false := hTop a (Nat.le_refl a) ha
    have hr : shouldRetry (env.attempt a).1 (env.attempt a).2 = true :=
      hRetry a (Nat.le_refl a) ha
    by_cases hlast : cfg.maxRetries ≤ a
    · have haeq : a = cfg.maxRetries := by omega
      rw [retryLoop_eq_break env cfg a d lR lE fuel hc hr hlast]
      refine ⟨by rw [haeq], ?_⟩
      intro i r hai hile hresp hbody
      have hieq : i = a := by omega
      subst hieq
      simp [closeEvs, hresp, hbody]
    · have hlt : a < cfg.maxRetries := by omega
      have hs : env.ctxSleep a = false := hSleep a (Nat.le_refl a) hlt
      obtain ⟨ihres, ihmem⟩ :=
        ih (a + 1) (nextDelay cfg d) (env.attempt a).1 (env.attempt a).2 (by omega)
          (by omega)
          (fun i h1 h2 => hTop i (by omega) h2)
          (fun i h1 h2 => hSleep i (by omega) h2)
          (fun i h1 h2 => hRetry i (by omega) h2)
      rw [retryLoop_eq_step env cfg a d lR lE fuel hc hr hlt hs]
      refine ⟨ihres, ?_⟩
      intro i r hai hile hresp hbody
      by_cases hieq : i = a
      · subst hieq
        simp [closeEvs, hresp, hbody]
      · have hmem := ihmem i r (by omega) hile hresp hbody
        simp [hmem]

theorem retryLoop_cancel_reach {E : Type} (env : RetryEnv E) (cfg : RetryConfig)
    (i : Nat) (hi : i ≤ cfg.maxRetries) :
    ∀ (fuel a : Nat) (d : ℚ) (lR : Option HttpResponse) (lE : Option E),
      a + fuel = cfg.maxRetries + 1 → a ≤ i →
      (∀ j, a ≤ j → j < i → env.ctxTop j = false) →
      (∀ j, a ≤ j → j < i → env.ctxSleep j = false) →
      (∀ j, a ≤ j → j < i →
        shouldRetry (env.attempt j).1 (env.attempt j).2 = true) →
      (env.ctxTop i = true →
        (retryLoop env cfg a d lR lE fuel).2 = (none, some env.ctxErr) ∧
        ∀ k ∈ attemptIdxs (retryLoop env cfg a d lR lE fuel).1, k < i) ∧
      (env.ctxTop i = false → env.ctxSleep i = true → i < cfg.maxRetries →
        shouldRetry (env.attempt i).1 (env.attempt i).2 = true →
        (retryLoop env cfg a d lR lE fuel).2 = (none, some env.ctxErr) ∧
        ∀ k ∈ attemptIdxs (retryLoop env cfg a d lR lE fuel).1, k ≤ i) := by
  intro fuel
  induction fuel with
  | zero => intro a d lR lE hinv hai; omega
  | succ fuel ih =>
    intro a d lR lE hinv hai hTop hSleep hRetry
    by_cases haeq : a = i
    · subst haeq
      constructor
      · intro hct
        rw [retryLoop_eq_ctxTop env cfg a d lR lE fuel hct]
        exact ⟨rfl, by simp [attemptIdxs]⟩
      · intro hct hcs hlt hr
        rw [retryLoop_eq_cancelSleep env cfg a d lR lE fuel hct hr hlt hcs]
        refine ⟨rfl, ?_⟩
        intro k hk
        simp only [attemptIdxs_cons_made, attemptIdxs_closeEvs] at hk
        simp at hk
        omega
    · have halt : a < i := by omega
      have hc : env.ctxTop a = false := hTop a (Nat.le_refl a) halt
      have hs : env.ctxSleep a = false := hSleep a (Nat.le_refl a) halt
      have hr : shouldRetry (env.attempt a).1 (env.attempt a).2 = true :=
        hRetry a (Nat.le_refl a) halt
      have hamax : a < cfg.maxRetries := by omega
      have hrec := ih (a + 1) (nextDelay cfg d) (env.attempt a).1 (env.attempt a).2
        (by omega) (by omega)
        (fun j h1 h2 => hTop j (by omega) h2)
        (fun j h1 h2 => hSleep j (by omega) h2)
        (fun j h1 h2 => hRetry j (by omega) h2)
      rw [retryLoop_eq_step env cfg a d lR lE fuel hc hr hamax hs]
      constructor
      · intro hct
        refine ⟨(hrec.1 hct).1, ?_⟩
        intro k hk
        simp only [attemptIdxs_cons_made, attemptIdxs_append, attemptIdxs_closeEvs,
          attemptIdxs_cons_slept, List.nil_append, List.mem_cons] at hk
        rcases hk with rfl | hk
        · omega
        · exact (hrec.1 hct).2 k hk
      · intro hct hcs hlt hsr
        refine ⟨(hrec.2 hct hcs hlt hsr).1, ?_⟩
        intro k hk
        simp only [attemptIdxs_cons_made, attemptIdxs_append, attemptIdxs_closeEvs,
          attemptIdxs_cons_slept, List.nil_append, List.mem_cons] at hk
        rcases hk with rfl | hk
        · omega
        · exact (hrec.2 hct hcs hlt hsr).2 k hk

/-- Claim C3: when executeWithRetry exhausts every attempt without an early
return (no cancellation, every outcome retryable), the call returns exactly
the last outcome produced by the last permitted attempt: its error when
non-nil, otherwise its response with a nil error, even when that response is
itself retryable (for example still 503); no exhaustion error is synthesized
on the response-carrying path. -/
theorem executeWithRetry_exhaust_returns_last_outcome {E : Type}
    (env : RetryEnv E) (cfg : RetryConfig)
    (hTop : ∀ i, i ≤ cfg.maxRetries → env.ctxTop i = false)
    (hSleep : ∀ i, i < cfg.maxRetries → env.ctxSleep i = false)
    (hRetry : ∀ i, i ≤ cfg.maxRetries →
      shouldRetry (env.attempt i).1 (env.attempt i).2 = true) :
    (executeWithRetry env (some cfg)).2 = env.attempt cfg.maxRetries :=
  (retryLoop_exhaust env cfg (cfg.maxRetries + 1) 0 cfg.initialDelay none none
    (by omega) (by omega)
    (fun i _ h2 => hTop i h2) (fun i _ h2 => hSleep i h2)
    (fun i _ h2 => hRetry i h2)).1

theorem executeWithRetry_exhaust_returns_last_outcome_witness :
    (executeWithRetry
        (RetryEnv.mk (fun _ => (some ⟨503, true⟩, none)) (fun _ => false)
          (fun _ => false) ())
        (some (RetryConfig.mk 3 100 5000 2))).2 = (some ⟨503, true⟩, none) :=
  executeWithRetry_exhaust_returns_last_outcome
    (RetryEnv.mk (fun _ => (some ⟨503, true⟩, none)) (fun _ => false)
      (fun _ => false) ())
    (RetryConfig.mk 3 100 5000 2)
    (fun _ _ => rfl) (fun _ _ => rfl) (fun _ _ => rfl)

/-- Claim C4: for any retry configuration with maxDelay at least the initial
delay and a multiplier at least 1, the backoff delays used by
executeWithRetry follow the schedule delay 0 = initialDelay,
delay (i+1) = min (delay i * multiplier) maxDelay (the clamp of the source
written as a min); the delays actually slept form an initial segment of that
schedule, none exceeds maxDelay, and at most maxRetries sleeps and
maxRetries + 1 attempts occur in one call. -/
theorem executeWithRetry_backoff_schedule {E : Type}
    (env : RetryEnv E) (cfg : RetryConfig)
    (hdm : cfg.initialDelay ≤ cfg.maxDelay) (hmul : 1 ≤ cfg.multiplier) :
    delaySeq cfg 0 = cfg.initialDelay ∧
    (∀ i, delaySeq cfg (i + 1) = min (delaySeq cfg i * cfg.multiplier) cfg.maxDelay) ∧
    (∃ k, k ≤ cfg.maxRetries ∧
      sleeps (executeWithRetry env (some cfg)).1 =
        (List.range k).map (fun j => delaySeq cfg j)) ∧
    (∀ q ∈ sleeps (executeWithRetry env (some cfg)).1, q ≤ cfg.maxDelay) ∧
    (attemptIdxs (executeWithRetry env (some cfg)).1).length ≤ cfg.maxRetries + 1 := by
  have hE : executeWithRetry env (some cfg)
      = retryLoop env cfg 0 cfg.initialDelay none none (cfg.maxRetries + 1) := rfl
  obtain ⟨k, hk, hsl⟩ :=
    retryLoop_sleeps env cfg (cfg.maxRetries + 1) 0 cfg.initialDelay none none (by omega)
  have hexp : expDelays cfg cfg.initialDelay k
      = (List.range k).map (fun j => delaySeq cfg j) := by
    have h0 := expDelays_delaySeq cfg k 0
    simpa [delaySeq] using h0
  refine ⟨rfl, ?_, ⟨k, by omega, ?_⟩, ?_, ?_⟩
  · intro i
    rw [show delaySeq cfg (i + 1) = nextDelay cfg (delaySeq cfg i) from rfl,
      nextDelay_eq_min]
  · rw [hE, hsl, hexp]
  · intro q hq
    rw [hE, hsl, hexp] at hq
    simp only [List.mem_map, List.mem_range] at hq
    obtain ⟨j, _, rfl⟩ := hq
    exact delaySeq_le cfg hdm j
  · rw [hE]
    exact retryLoop_attempts_le env cfg (cfg.maxRetries + 1) 0 cfg.initialDelay none none

theorem executeWithRetry_backoff_schedule_witness :
    ((100 : ℚ) ≤ 5000 ∧ (1 : ℚ) ≤ 2) ∧
    (delaySeq (RetryConfig.mk 3 100 5000 2) 0
        = (RetryConfig.mk 3 100 5000 2).initialDelay ∧
    (∀ i, delaySeq (RetryConfig.mk 3 100 5000 2) (i + 1)
        = min (delaySeq (RetryConfig.mk 3 100 5000 2) i
            * (RetryConfig.mk 3 100 5000 2).multiplier)
          (RetryConfig.mk 3 100 5000 2).maxDelay) ∧
    (∃ k, k ≤ (RetryConfig.mk 3 100 5000 2).maxRetries ∧
      sleeps (executeWithRetry
          (RetryEnv.mk (fun _ => (some ⟨503, true⟩, none)) (fun _ => false)
            (fun _ => false) ())
          (some (RetryConfig.mk 3 100 5000 2))).1 =
        (List.range k).map (fun j => delaySeq (RetryConfig.mk 3 100 5000 2) j)) ∧
    (∀ q ∈ sleeps (executeWithRetry
          (RetryEnv.mk (fun _ => (some ⟨503, true⟩, none)) (fun _ => false)
            (fun _ => false) ())
          (some (RetryConfig.mk 3 100 5000 2))).1,
        q ≤ (RetryConfig.mk 3 100 5000 2).maxDelay) ∧
    (attemptIdxs (executeWithRetry
          (RetryEnv.mk (fun _ => (some ⟨503, true⟩, none)) (fun _ => false)
            (fun _ => false) ())
          (some (RetryConfig.mk 3 100 5000 2))).1).length
        ≤ (RetryConfig.mk 3 100 5000 2).maxRetries + 1) :=
  ⟨⟨by decide, by decide⟩,
    executeWithRetry_backoff_schedule
      (RetryEnv.mk (fun _ => (some ⟨503, true⟩, none)) (fun _ => false)
        (fun _ => false) ())
      (RetryConfig.mk 3 100 5000 2) (by decide) (by decide)⟩

/-- Claim C5: shouldRetry returns true exactly when the error is non-nil, or
the response is absent, or the status is at least 500, or the status is
exactly 429; it returns false for every 2xx status and every 4xx status
other than 429; in particular the absence of both a response and an error
yields true. -/
theorem shouldRetry_characterization {E : Type}
    (resp : Option HttpResponse) (err : Option E) :
    (shouldRetry resp err = true ↔
      err.isSome = true ∨ resp = none ∨
        ∃ r, resp = some r ∧ (500 ≤ r.statusCode ∨ r.statusCode = 429)) ∧
    (∀ r, resp = some r → err = none →
      ((200 ≤ r.statusCode ∧ r.statusCode < 300) ∨
        (400 ≤ r.statusCode ∧ r.statusCode < 500 ∧ r.statusCode ≠ 429)) →
      shouldRetry resp err = false) ∧
    shouldRetry (none : Option HttpResponse) (none : Option E) = true := by
  refine ⟨?_, ?_, by simp [shouldRetry]⟩
  · cases err with
    | some e => simp [shouldRetry]
    | none =>
      cases resp with
      | none => simp [shouldRetry]
      | some r =>
        constructor
        · intro h
          simp only [shouldRetry, Option.isSome_none, Bool.false_eq_true,
            if_false] at h
          split_ifs at h with h1 h2 h3
          · exact Or.inr (Or.inr ⟨r, rfl, Or.inl h1⟩)
          · exact Or.inr (Or.inr ⟨r, rfl, Or.inr h2⟩)
        · rintro (h | h | ⟨s, hs, hor⟩)
          · simp at h
          · simp at h
          · rw [Option.some_inj] at hs
            subst hs
            simp only [shouldRetry, Option.isSome_none, Bool.false_eq_true, if_false]
            split_ifs with h1 h2 h3 <;> first | rfl | omega
  · rintro r rfl rfl hcase
    simp only [shouldRetry, Option.isSome_none, Bool.false_eq_true, if_false]
    split_ifs with h1 h2 h3 <;> first | rfl | omega

theorem shouldRetry_characterization_witness :
    shouldRetry (some ⟨503, true⟩) (none : Option Unit) = true ∧
    shouldRetry (some ⟨404, true⟩) (none : Option Unit) = false ∧
    shouldRetry (none : Option HttpResponse) (none : Option Unit) = true :=
  ⟨(shouldRetry_characterization (some ⟨503, true⟩) (none : Option Unit)).1.mpr
      (Or.inr (Or.inr ⟨⟨503, true⟩, rfl, Or.inl (by decide)⟩)),
    (shouldRetry_characterization (some ⟨404, true⟩) (none : Option Unit)).2.1
      ⟨404, true⟩ rfl rfl (Or.inr ⟨by decide, by decide, by decide⟩),
    (shouldRetry_characterization (none : Option HttpResponse)
      (none : Option Unit)).2.2⟩

/-- Claim C6: for every retry configuration, if the very first attempt yields
a 2xx response with no error, executeWithRetry returns that outcome at once:
the trace holds exactly one attempt and no sleep, and the result is the
response with a nil error. -/
theorem executeWithRetry_first_attempt_success_short_circuits {E : Type}
    (env : RetryEnv E) (cfg : RetryConfig) (r : HttpResponse)
    (hc : env.ctxTop 0 = false)
    (ha : env.attempt 0 = (some r, none))
    (hlo : 200 ≤ r.statusCode) (hhi : r.statusCode < 300) :
    executeWithRetry env (some cfg) = ([REvent.attemptMade 0], (some r, none)) := by
  have hE : executeWithRetry env (some cfg)
      = retryLoop env cfg 0 cfg.initialDelay none none (cfg.maxRetries + 1) := rfl
  have hsu : isSuccess (env.attempt 0).1 (env.attempt 0).2 = true := by
    rw [ha]
    simp [isSuccess, hlo, hhi]
  rw [hE, retryLoop_eq_success env cfg 0 cfg.initialDelay none none
    cfg.maxRetries hc hsu, ha]

theorem executeWithRetry_first_attempt_success_short_circuits_witness :
    executeWithRetry
        (RetryEnv.mk (fun _ => (some ⟨200, false⟩, none)) (fun _ => false)
          (fun _ => false) ())
        (some (RetryConfig.mk 3 100 5000 2))
      = ([REvent.attemptMade 0], (some ⟨200, false⟩, none)) :=
  executeWithRetry_first_attempt_success_short_circuits
    (RetryEnv.mk (fun _ => (some ⟨200, false⟩, none)) (fun _ => false)
      (fun _ => false) ())
    (RetryConfig.mk 3 100 5000 2) ⟨200, false⟩ rfl rfl (by decide) (by decide)

/-- Claim C7: once the cancellation context fires, executeWithRetry never
issues another attempt.  If the context is already cancelled when iteration i
begins (and the run reached i without earlier cancellation), the call returns
the cancellation error and attempt i is never issued; if the context fires
during the backoff wait after attempt i, the call returns the cancellation
error and no attempt beyond i is ever issued. -/
theorem executeWithRetry_cancellation_stops_attempts {E : Type}
    (env : RetryEnv E) (cfg : RetryConfig) (i : Nat)
    (hi : i ≤ cfg.maxRetries)
    (hTop : ∀ j, j < i → env.ctxTop j = false)
    (hSleep : ∀ j, j < i → env.ctxSleep j = false)
    (hRetry : ∀ j, j < i →
      shouldRetry (env.attempt j).1 (env.attempt j).2 = true) :
    (env.ctxTop i = true →
      (executeWithRetry env (some cfg)).2 = (none, some env.ctxErr) ∧
      ∀ k ∈ attemptIdxs (executeWithRetry env (some cfg)).1, k < i) ∧
    (env.ctxTop i = false → env.ctxSleep i = true → i < cfg.maxRetries →
      shouldRetry (env.attempt i).1 (env.attempt i).2 = true →
      (executeWithRetry env (some cfg)).2 = (none, some env.ctxErr) ∧
      ∀ k ∈ attemptIdxs (executeWithRetry env (some cfg)).1, k ≤ i) :=
  retryLoop_cancel_reach env cfg i hi (cfg.maxRetries + 1) 0 cfg.initialDelay
    none none (by omega) (by omega)
    (fun j _ h2 => hTop j h2) (fun j _ h2 => hSleep j h2)
    (fun j _ h2 => hRetry j h2)

theorem executeWithRetry_cancellation_stops_attempts_witness :
    (executeWithRetry
        (RetryEnv.mk (fun _ => (some ⟨503, true⟩, none))
          (fun j => decide (1 ≤ j)) (fun _ => false) ())
        (some (RetryConfig.mk 3 100 5000 2))).2 = (none, some ()) ∧
    ∀ k ∈ attemptIdxs (executeWithRetry
        (RetryEnv.mk (fun _ => (some ⟨503, true⟩, none))
          (fun j => decide (1 ≤ j)) (fun _ => false) ())
        (some (RetryConfig.mk 3 100 5000 2))).1, k < 1 :=
  (executeWithRetry_cancellation_stops_attempts
    (RetryEnv.mk (fun _ => (some ⟨503, true⟩, none))
      (fun j => decide (1 ≤ j)) (fun _ => false) ())
    (RetryConfig.mk 3 100 5000 2) 1 (by decide)
    (fun j hj => by interval_cases j <;> rfl)
    (fun _ _ => rfl) (fun _ _ => rfl)).1 rfl

/-- Claim C9: the initial delay is never clamped to maxDelay.  When
initialDelay exceeds maxDelay, the first outcome is retryable, at least one
retry is permitted and nothing cancels, the first backoff wait of
executeWithRetry sleeps for initialDelay itself: the clamp applies only to
delays produced by the multiplication, never to the starting value. -/
theorem executeWithRetry_first_wait_uses_initialDelay {E : Type}
    (env : RetryEnv E) (cfg : RetryConfig)
    (hgt : cfg.maxDelay < cfg.initialDelay)
    (hN : 1 ≤ cfg.maxRetries)
    (hc : env.ctxTop 0 = false)
    (hr : shouldRetry (env.attempt 0).1 (env.attempt 0).2 = true)
    (hs : env.ctxSleep 0 = false) :
    (sleeps (executeWithRetry env (some cfg)).1).head? = some cfg.initialDelay := by
  have hE : executeWithRetry env (some cfg)
      = retryLoop env cfg 0 cfg.initialDelay none none (cfg.maxRetries + 1) := rfl
  rw [hE, retryLoop_eq_step env cfg 0 cfg.initialDelay none none cfg.maxRetries
    hc hr (by omega) hs]
  simp [sleeps_cons, sleeps_append, sleeps_closeEvs]

theorem executeWithRetry_first_wait_uses_initialDelay_witness :
    (RetryConfig.mk 2 100 50 2).maxDelay < (RetryConfig.mk 2 100 50 2).initialDelay ∧
    (sleeps (executeWithRetry
        (RetryEnv.mk (fun _ => (some ⟨503, true⟩, none)) (fun _ => false)
          (fun _ => false) ())
        (some (RetryConfig.mk 2 100 50 2))).1).head?
      = some (RetryConfig.mk 2 100 50 2).initialDelay :=
  ⟨by decide,
    executeWithRetry_first_wait_uses_initialDelay
      (RetryEnv.mk (fun _ => (some ⟨503, true⟩, none)) (fun _ => false)
        (fun _ => false) ())
      (RetryConfig.mk 2 100 50 2) (by decide) (by decide) rfl (by decide) rfl⟩

/-- Claim C10: on the exhaustion path, every retryable outcome, including the
one of the last permitted attempt, has its response body closed inside the
loop, so the response returned after exhaustion is one whose body was
already closed. -/
theorem executeWithRetry_exhaust_returned_body_closed {E : Type}
    (env : RetryEnv E) (cfg : RetryConfig)
    (hTop : ∀ i, i ≤ cfg.maxRetries → env.ctxTop i = false)
    (hSleep : ∀ i, i < cfg.maxRetries → env.ctxSleep i = false)
    (hRetry : ∀ i, i ≤ cfg.maxRetries →
      shouldRetry (env.attempt i).1 (env.attempt i).2 = true) :
    (executeWithRetry env (some cfg)).2.1 = (env.attempt cfg.maxRetries).1 ∧
    (∀ i r, i ≤ cfg.maxRetries → (env.attempt i).1 = some r → r.hasBody = true →
      REvent.bodyClosed i ∈ (executeWithRetry env (some cfg)).1) := by
  have h := retryLoop_exhaust env cfg (cfg.maxRetries + 1) 0 cfg.initialDelay
    none none (by omega) (by omega)
    (fun i _ h2 => hTop i h2) (fun i _ h2 => hSleep i h2)
    (fun i _ h2 => hRetry i h2)
  exact ⟨congrArg Prod.fst h.1, fun i r h1 h2 h3 => h.2 i r (by omega) h1 h2 h3⟩

theorem executeWithRetry_exhaust_returned_body_closed_witness :
    (executeWithRetry
        (RetryEnv.mk (fun _ => (some ⟨503, true⟩, none)) (fun _ => false)
          (fun _ => false) ())
        (some (RetryConfig.mk 3 100 5000 2))).2.1 = some ⟨503, true⟩ ∧
    REvent.bodyClosed 3 ∈ (executeWithRetry
        (RetryEnv.mk (fun _ => (some ⟨503, true⟩, none)) (fun _ => false)
          (fun _ => false) ())
        (some (RetryConfig.mk 3 100 5000 2))).1 := by
  have h := executeWithRetry_exhaust_returned_body_closed
    (RetryEnv.mk (fun _ => (some ⟨503, true⟩, none)) (fun _ => false)
      (fun _ => false) ())
    (RetryConfig.mk 3 100 5000 2)
    (fun _ _ => rfl) (fun _ _ => rfl) (fun _ _ => rfl)
  exact ⟨h.1, h.2 3 ⟨503, true⟩ (Nat.le_refl 3) rfl rfl⟩

/-!
WebSocket model.  M is the opaque payload type carried in both directions
(Go interface values); E is the opaque type of transport and codec errors.
-/

/-- WebSocketResponse of the WebSocket source file: the event published on
the caller-provided receive channel. -/
structure WebSocketResponse (M E : Type) where
  data : Option M
  error : Option E
  closed : Bool
deriving DecidableEq

/-- A WebSocketResponse is terminal when it carries an error or the Closed
marker. -/
def WebSocketResponse.isTerminal {M E : Type} (r : WebSocketResponse M E) : Bool :=
  r.error.isSome || r.closed

/-- The inbound goroutine of WebSocketStream: read messages in a loop,
publishing each as a Data event; the first read error publishes an event
carrying the error together with Closed = true, and the loop returns.
The environment fixes the messages decoded before the read fails and the
failing read's error. -/
def inboundLoop {M E : Type} (readErr : E) : List M → List (WebSocketResponse M E)
  | [] => [⟨none, some readErr, true⟩]
  | m :: ms => ⟨some m, none, false⟩ :: inboundLoop readErr ms

/-- An operation performed on the caller-provided receive channel. -/
inductive ChanOp (M E : Type) where
  | publish (r : WebSocketResponse M E)
  | closeChan
deriving DecidableEq

/-- What the outbound select of WebSocketStream observes on one iteration:
the context fires, an item arrives on the send channel, or the send channel
is found closed. -/
inductive SendEvent (M : Type) where
  | ctxDone
  | item (m : M)
  | chanClosed
deriving DecidableEq

/-- Return value of one WebSocketStream session.  ok is the nil return taken
when the caller closes the send channel; ctxErr is the context error return;
dialFailed and sendFailed are the two WebSocketError returns. -/
inductive SessionRet (E : Type) where
  | ok
  | ctxErr
  | dialFailed (e : E)
  | sendFailed (e : E)
deriving DecidableEq

/-- The outbound loop of WebSocketStream: the select either observes the
context firing (return ctx.Err()), takes an item and writes it (a write
error returns a send WebSocketError, success loops), or finds the send
channel closed (return nil).  none models a loop still waiting for input. -/
def outboundLoop {M E : Type} (writeErr : M → Option E) :
    List (SendEvent M) → Option (SessionRet E)
  | [] => none
  | SendEvent.ctxDone :: _ => some SessionRet.ctxErr
  | SendEvent.chanClosed :: _ => some SessionRet.ok
  | SendEvent.item m :: rest =>
    match writeErr m with
    | some e => some (SessionRet.sendFailed e)
    | none => outboundLoop writeErr rest

/-- Environment of one WebSocketStream session: whether the dial fails, the
messages the inbound loop decodes before its read fails and that read's
error, the sequence of events the outbound select observes, and which writes
fail. -/
structure SessionEnv (M E : Type) where
  dialErr : Option E
  reads : List M
  readErr : E
  sendEvents : List (SendEvent M)
  writeErr : M → Option E

/-- The operations one session performs on the caller-provided receive
channel.  A failed dial returns before the inbound goroutine starts, so no
operation happens; otherwise the goroutine publishes every inbound event and
then closes the channel (its deferred close). -/
def sessionChanOps {M E : Type} (s : SessionEnv M E) : List (ChanOp M E) :=
  match s.dialErr with
  | some _ => []
  | none => (inboundLoop s.readErr s.reads).map ChanOp.publish ++ [ChanOp.closeChan]

/-- The value one WebSocketStream session returns: the dial error when the
dial fails, otherwise whatever the outbound loop produces. -/
def sessionReturn {M E : Type} (s : SessionEnv M E) : Option (SessionRet E) :=
  match s.dialErr with
  | some e => some (SessionRet.dialFailed e)
  | none => outboundLoop s.writeErr s.sendEvents

/-- WebSocketStream of the WebSocket source file, as one session: the
operations its inbound goroutine performs on the receive channel, paired
with its return value. -/
def webSocketStream {M E : Type} (s : SessionEnv M E) :
    List (ChanOp M E) × Option (SessionRet E) :=
  (sessionChanOps s, sessionReturn s)

/-- WebSocketConfig of the WebSocket source file, as consumed by the
reconnect supervisor.  onReconnectSet records whether the OnReconnect
callback is non-nil. -/
structure WsConfig where
  autoReconnect : Bool
  maxReconnectAttempts : Nat
  reconnectDelay : ℚ
  maxReconnectDelay : ℚ
  reconnectMultiplier : ℚ
  onReconnectSet : Bool

/-- The reconnect backoff update of WebSocketStreamWithReconnect: multiply
the delay, then clamp it at MaxReconnectDelay. -/
def nextWsDelay (cfg : WsConfig) (d : ℚ) : ℚ :=
  if cfg.maxReconnectDelay < d * cfg.reconnectMultiplier then cfg.maxReconnectDelay
  else d * cfg.reconnectMultiplier

/-- Environment of one WebSocketStreamWithReconnect call: the session each
iteration would run, and the cancellation context at the three places the
supervisor consults it (top of the loop, the select racing the reconnect
sleep, and the check right after a session ends), indexed by the value of
the attempt counter at that iteration. -/
structure ReconnectEnv (M E : Type) where
  session : Nat → SessionEnv M E
  ctxTop : Nat → Bool
  ctxSleep : Nat → Bool
  ctxAfter : Nat → Bool

/-- Observable events of one WebSocketStreamWithReconnect call. -/
inductive WsEvent (M E : Type) where
  | onReconnectCalled (i : Nat)
  | slept (d : ℚ)
  | sessionStarted (i : Nat)
  | chan (op : ChanOp M E)
deriving DecidableEq

/-- Return value of WebSocketStreamWithReconnect: a delegated single-session
result when reconnection is off, the context error, or the exhaustion
WebSocketError wrapping the last session's return. -/
inductive WsOutcome (E : Type) where
  | fromSession (r : SessionRet E)
  | ctxCancelled
  | maxAttemptsExceeded (last : SessionRet E)
deriving DecidableEq

/-- The reconnect loop of WebSocketStreamWithReconnect.  Each iteration
checks the context; on every iteration after the first it invokes the
OnReconnect callback when set, then sleeps racing the context and advances
the delay; it runs one session, re-checks the context, increments the
attempt counter, and stops with the exhaustion error once
MaxReconnectAttempts is positive and reached.  The fuel argument only bounds
the recursion: a none result models a run still in the loop after fuel
iterations (the Go loop is unbounded when MaxReconnectAttempts is 0). -/
def reconnectLoop {M E : Type} (env : ReconnectEnv M E) (cfg : WsConfig) :
    Nat → Nat → ℚ → List (WsEvent M E) × Option (WsOutcome E)
  | 0, _, _ => ([], none)
  | fuel + 1, attempt, delay =>
    if env.ctxTop attempt = true then ([], some WsOutcome.ctxCancelled)
    else
      let cbEvs : List (WsEvent M E) :=
        if 0 < attempt then
          if cfg.onReconnectSet = true then [WsEvent.onReconnectCalled attempt]
          else []
        else []
      if 0 < attempt ∧ env.ctxSleep attempt = true then
        (cbEvs, some WsOutcome.ctxCancelled)
      else
        let sleepEvs : List (WsEvent M E) :=
          if 0 < attempt then [WsEvent.slept delay] else []
        let nd : ℚ := if 0 < attempt then nextWsDelay cfg delay else delay
        let s := env.session attempt
        let evs := cbEvs ++ sleepEvs ++ WsEvent.sessionStarted attempt ::
          (sessionChanOps s).map WsEvent.chan
        match sessionReturn s with
        | none => (evs, none)
        | some ret =>
          if env.ctxAfter attempt = true then (evs, some WsOutcome.ctxCancelled)
          else if 0 < cfg.maxReconnectAttempts ∧
              cfg.maxReconnectAttempts ≤ attempt + 1 then
            (evs, some (WsOutcome.maxAttemptsExceeded ret))
          else
            let next := reconnectLoop env cfg fuel (attempt + 1) nd
            (evs ++ next.1, next.2)

/-- WebSocketStreamWithReconnect of the WebSocket source file.  Without a
WebSocket configuration, or with AutoReconnect disabled, it delegates to a
single WebSocketStream call; otherwise it runs the reconnect loop starting
at attempt 0 with the configured reconnect delay. -/
def webSocketStreamWithReconnect {M E : Type} (env : ReconnectEnv M E)
    (cfg : Option WsConfig) (fuel : Nat) :
    List (WsEvent M E) × Option (WsOutcome E) :=
  match cfg with
  | none =>
    (WsEvent.sessionStarted 0 :: (sessionChanOps (env.session 0)).map WsEvent.chan,
      (sessionReturn (env.session 0)).map WsOutcome.fromSession)
  | some c =>
    if c.autoReconnect = false then
      (WsEvent.sessionStarted 0 :: (sessionChanOps (env.session 0)).map WsEvent.chan,
        (sessionReturn (env.session 0)).map WsOutcome.fromSession)
    else reconnectLoop env c fuel 0 c.reconnectDelay

/-- Indices of the sessions started in a supervisor trace, in order. -/
def sessionStarts {M E : Type} (evs : List (WsEvent M E)) : List Nat :=
  evs.filterMap fun e =>
    match e with
    | WsEvent.sessionStarted i => some i
    | _ => none

/-- Indices at which the OnReconnect callback was invoked, in order. -/
def onReconnectCalls {M E : Type} (evs : List (WsEvent M E)) : List Nat :=
  evs.filterMap fun e =>
    match e with
    | WsEvent.onReconnectCalled i => some i
    | _ => none

/-- The receive-channel operations of a supervisor trace, in order. -/
def chanTrace {M E : Type} (evs : List (WsEvent M E)) : List (ChanOp M E) :=
  evs.filterMap fun e =>
    match e with
    | WsEvent.chan op => some op
    | _ => none

/-- Whether an operation publishes a terminal event. -/
def ChanOp.isTerminalPub {M E : Type} : ChanOp M E → Bool
  | ChanOp.publish r => r.isTerminal
  | ChanOp.closeChan => false

/-- Whether any operation in the list publishes an event. -/
def anyPublish {M E : Type} (ops : List (ChanOp M E)) : Bool :=
  ops.any fun op =>
    match op with
    | ChanOp.publish _ => true
    | ChanOp.closeChan => false

/-- Whether any operation in the list closes the channel. -/
def anyCloseOp {M E : Type} (ops : List (ChanOp M E)) : Bool :=
  ops.any fun op =>
    match op with
    | ChanOp.publish _ => false
    | ChanOp.closeChan => true

/-- Whether some publish happens strictly after a terminal publish. -/
def writesAfterTerminal {M E : Type} : List (ChanOp M E) → Bool
  | [] => false
  | op :: rest => (op.isTerminalPub && anyPublish rest) || writesAfterTerminal rest

/-- Whether the channel is closed strictly after a terminal publish. -/
def closesAfterTerminal {M E : Type} : List (ChanOp M E) → Bool
  | [] => false
  | op :: rest => (op.isTerminalPub && anyCloseOp rest) || closesAfterTerminal rest

/-- Whether any operation publishes an event carrying a non-nil error. -/
def hasErrorEvent {M E : Type} (ops : List (ChanOp M E)) : Bool :=
  ops.any fun op =>
    match op with
    | ChanOp.publish r => r.error.isSome
    | ChanOp.closeChan => false

theorem chanTrace_map_chan_append {M E : Type} (ops : List (ChanOp M E))
    (rest : List (WsEvent M E)) :
    chanTrace (ops.map WsEvent.chan ++ rest) = ops ++ chanTrace rest := by
  induction ops with
  | nil => rfl
  | cons op ops ih => simpa [chanTrace] using ih

theorem sessionStarts_map_chan_append {M E : Type} (ops : List (ChanOp M E))
    (rest : List (WsEvent M E)) :
    sessionStarts (ops.map WsEvent.chan ++ rest) = sessionStarts rest := by
  induction ops with
  | nil => rfl
  | cons op ops ih => simpa [sessionStarts] using ih

theorem onReconnectCalls_map_chan_append {M E : Type} (ops : List (ChanOp M E))
    (rest : List (WsEvent M E)) :
    onReconnectCalls (ops.map WsEvent.chan ++ rest) = onReconnectCalls rest := by
  induction ops with
  | nil => rfl
  | cons op ops ih => simpa [onReconnectCalls] using ih

theorem outboundLoop_ok {M E : Type} (writeErr : M → Option E) (items : List M)
    (hw : ∀ m ∈ items, writeErr m = none) :
    outboundLoop writeErr (items.map SendEvent.item ++ [SendEvent.chanClosed])
      = some SessionRet.ok := by
  induction items with
  | nil => rfl
  | cons m items ih =>
    have hm : writeErr m = none := hw m (List.mem_cons_self m items)
    simp only [List.map_cons, List.cons_append, outboundLoop, hm]
    exact ih fun x hx => hw x (List.mem_cons_of_mem m hx)

theorem terminal_mem_inboundLoop {M E : Type} (e : E) (reads : List M) :
    (⟨none, some e, true⟩ : WebSocketResponse M E) ∈ inboundLoop e reads := by
  induction reads with
  | nil => simp [inboundLoop]
  | cons m ms ih => simp [inboundLoop, ih]

theorem writesAfterTerminal_inbound {M E : Type} (e : E) (reads : List M) :
    writesAfterTerminal
      ((inboundLoop e reads).map ChanOp.publish ++ [(ChanOp.closeChan : ChanOp M E)])
      = false := by
  induction reads with
  | nil =>
    simp [inboundLoop, writesAfterTerminal, anyPublish]
  | cons m ms ih =>
    simp only [inboundLoop, List.map_cons, List.cons_append, writesAfterTerminal,
      List.append_eq]
    rw [ih]
    simp [ChanOp.isTerminalPub, WebSocketResponse.isTerminal]

theorem writesAfterTerminal_sessionChanOps {M E : Type} (s : SessionEnv M E) :
    writesAfterTerminal (sessionChanOps s) = false := by
  cases h : s.dialErr with
  | some e => simp [sessionChanOps, h, writesAfterTerminal]
  | none =>
    simp only [sessionChanOps, h]
    exact writesAfterTerminal_inbound s.readErr s.reads

theorem closesAfterTerminal_sessionChanOps {M E : Type} (s : SessionEnv M E)
    (h : s.dialErr = none) :
    closesAfterTerminal (sessionChanOps s) = true := by
  simp only [sessionChanOps, h]
  induction s.reads with
  | nil =>
    simp [inboundLoop, closesAfterTerminal, anyCloseOp,
      ChanOp.isTerminalPub, WebSocketResponse.isTerminal]
  | cons m ms ih =>
    simp only [inboundLoop, List.map_cons, List.cons_append, closesAfterTerminal,
      List.append_eq]
    rw [ih]
    simp

theorem terminal_mem_sessionChanOps {M E : Type} (s : SessionEnv M E)
    (h : s.dialErr = none) :
    ChanOp.publish ⟨none, some s.readErr, true⟩ ∈ sessionChanOps s := by
  simp only [sessionChanOps, h]
  refine List.mem_append_left _ ?_
  exact List.mem_map_of_mem ChanOp.publish (terminal_mem_inboundLoop s.readErr s.reads)

theorem anyPublish_sessionChanOps {M E : Type} (s : SessionEnv M E)
    (h : s.dialErr = none) :
    anyPublish (sessionChanOps s) = true := by
  have hmem := terminal_mem_sessionChanOps s h
  simp only [anyPublish, List.any_eq_true]
  exact ⟨ChanOp.publish ⟨none, some s.readErr, true⟩, hmem, rfl⟩

theorem anyPublish_append {M E : Type} (l₁ l₂ : List (ChanOp M E)) :
    anyPublish (l₁ ++ l₂) = (anyPublish l₁ || anyPublish l₂) := by
  simp [anyPublish]

theorem anyCloseOp_append {M E : Type} (l₁ l₂ : List (ChanOp M E)) :
    anyCloseOp (l₁ ++ l₂) = (anyCloseOp l₁ || anyCloseOp l₂) := by
  simp [anyCloseOp]

theorem closesAfterTerminal_append_left {M E : Type} (l₁ l₂ : List (ChanOp M E))
    (h : closesAfterTerminal l₁ = true) :
    closesAfterTerminal (l₁ ++ l₂) = true := by
  induction l₁ with
  | nil => simp [closesAfterTerminal] at h
  | cons op rest ih =>
    simp only [closesAfterTerminal, Bool.or_eq_true, Bool.and_eq_true] at h
    simp only [List.cons_append, closesAfterTerminal, Bool.or_eq_true, Bool.and_eq_true]
    rcases h with ⟨ht, hcl⟩ | h
    · exact Or.inl ⟨ht, by simp only [List.append_eq]; rw [anyCloseOp_append, hcl]; rfl⟩
    · exact Or.inr (ih h)

theorem writesAfterTerminal_append_of {M E : Type} (l₁ l₂ : List (ChanOp M E))
    (h1 : ∃ op ∈ l₁, ChanOp.isTerminalPub op = true)
    (h2 : anyPublish l₂ = true) :
    writesAfterTerminal (l₁ ++ l₂) = true := by
  induction l₁ with
  | nil => simp at h1
  | cons op rest ih =>
    obtain ⟨op₀, hmem, hterm⟩ := h1
    simp only [List.cons_append, writesAfterTerminal, Bool.or_eq_true, Bool.and_eq_true]
    rcases List.mem_cons.mp hmem with rfl | hmem₀
    · exact Or.inl ⟨hterm, by simp only [List.append_eq]; rw [anyPublish_append, h2]; simp⟩
    · exact Or.inr (ih ⟨op₀, hmem₀, hterm⟩)

theorem sessionStarts_cons_onRec {M E : Type} (i : Nat) (l : List (WsEvent M E)) :
    sessionStarts (WsEvent.onReconnectCalled i :: l) = sessionStarts l := by
  simp [sessionStarts]

theorem sessionStarts_cons_slept {M E : Type} (d : ℚ) (l : List (WsEvent M E)) :
    sessionStarts (WsEvent.slept d :: l) = sessionStarts l := by
  simp [sessionStarts]

theorem sessionStarts_cons_started {M E : Type} (i : Nat) (l : List (WsEvent M E)) :
    sessionStarts (WsEvent.sessionStarted i :: l) = i :: sessionStarts l := by
  simp [sessionStarts]

theorem onReconnectCalls_cons_onRec {M E : Type} (i : Nat) (l : List (WsEvent M E)) :
    onReconnectCalls (WsEvent.onReconnectCalled i :: l) = i :: onReconnectCalls l := by
  simp [onReconnectCalls]

theorem onReconnectCalls_cons_slept {M E : Type} (d : ℚ) (l : List (WsEvent M E)) :
    onReconnectCalls (WsEvent.slept d :: l) = onReconnectCalls l := by
  simp [onReconnectCalls]

theorem onReconnectCalls_cons_started {M E : Type} (i : Nat) (l : List (WsEvent M E)) :
    onReconnectCalls (WsEvent.sessionStarted i :: l) = onReconnectCalls l := by
  simp [onReconnectCalls]

theorem chanTrace_cons_onRec {M E : Type} (i : Nat) (l : List (WsEvent M E)) :
    chanTrace (WsEvent.onReconnectCalled i :: l) = chanTrace l := by
  simp [chanTrace]

theorem chanTrace_cons_slept {M E : Type} (d : ℚ) (l : List (WsEvent M E)) :
    chanTrace (WsEvent.slept d :: l) = chanTrace l := by
  simp [chanTrace]

theorem chanTrace_cons_started {M E : Type} (i : Nat) (l : List (WsEvent M E)) :
    chanTrace (WsEvent.sessionStarted i :: l) = chanTrace l := by
  simp [chanTrace]

theorem sessionStarts_map_chan {M E : Type} (ops : List (ChanOp M E)) :
    sessionStarts (ops.map WsEvent.chan) = [] := by
  simpa using sessionStarts_map_chan_append ops []

theorem onReconnectCalls_map_chan {M E : Type} (ops : List (ChanOp M E)) :
    onReconnectCalls (ops.map WsEvent.chan) = [] := by
  simpa using onReconnectCalls_map_chan_append ops []

theorem chanTrace_map_chan {M E : Type} (ops : List (ChanOp M E)) :
    chanTrace (ops.map WsEvent.chan) = ops := by
  simpa [chanTrace] using chanTrace_map_chan_append ops []

theorem reconnectLoop_eq_exit0 {M E : Type} (env : ReconnectEnv M E) (cfg : WsConfig)
    (fuel : Nat) (d : ℚ) (ret : SessionRet E)
    (hct : env.ctxTop 0 = false)
    (hret : sessionReturn (env.session 0) = some ret)
    (hca : env.ctxAfter 0 = false)
    (hexit : 0 < cfg.maxReconnectAttempts ∧ cfg.maxReconnectAttempts ≤ 1) :
    reconnectLoop env cfg (fuel + 1) 0 d =
      (WsEvent.sessionStarted 0 :: (sessionChanOps (env.session 0)).map WsEvent.chan,
        some (WsOutcome.maxAttemptsExceeded ret)) := by
  simp [reconnectLoop, hct, hret, hca, hexit.1, hexit.2]

theorem reconnectLoop_eq_cont0 {M E : Type} (env : ReconnectEnv M E) (cfg : WsConfig)
    (fuel : Nat) (d : ℚ) (ret : SessionRet E)
    (hct : env.ctxTop 0 = false)
    (hret : sessionReturn (env.session 0) = some ret)
    (hca : env.ctxAfter 0 = false)
    (hcont : ¬(0 < cfg.maxReconnectAttempts ∧ cfg.maxReconnectAttempts ≤ 1)) :
    reconnectLoop env cfg (fuel + 1) 0 d =
      (WsEvent.sessionStarted 0 :: ((sessionChanOps (env.session 0)).map WsEvent.chan
          ++ (reconnectLoop env cfg fuel 1 d).1),
        (reconnectLoop env cfg fuel 1 d).2) := by
  simp [reconnectLoop, hct, hret, hca, hcont]

theorem reconnectLoop_eq_exit_pos {M E : Type} (env : ReconnectEnv M E) (cfg : WsConfig)
    (fuel a : Nat) (d : ℚ) (ret : SessionRet E)
    (h1a : 0 < a) (hcb : cfg.onReconnectSet = true)
    (hct : env.ctxTop a = false) (hcs : env.ctxSleep a = false)
    (hret : sessionReturn (env.session a) = some ret) (hca : env.ctxAfter a = false)
    (hexit : 0 < cfg.maxReconnectAttempts ∧ cfg.maxReconnectAttempts ≤ a + 1) :
    reconnectLoop env cfg (fuel + 1) a d =
      (WsEvent.onReconnectCalled a :: WsEvent.slept d :: WsEvent.sessionStarted a ::
          (sessionChanOps (env.session a)).map WsEvent.chan,
        some (WsOutcome.maxAttemptsExceeded ret)) := by
  simp [reconnectLoop, h1a, hcb, hct, hcs, hret, hca, hexit.1, hexit.2]

theorem reconnectLoop_eq_cont_pos {M E : Type} (env : ReconnectEnv M E) (cfg : WsConfig)
    (fuel a : Nat) (d : ℚ) (ret : SessionRet E)
    (h1a : 0 < a) (hcb : cfg.onReconnectSet = true)
    (hct : env.ctxTop a = false) (hcs : env.ctxSleep a = false)
    (hret : sessionReturn (env.session a) = some ret) (hca : env.ctxAfter a = false)
    (hcont : ¬(0 < cfg.maxReconnectAttempts ∧ cfg.maxReconnectAttempts ≤ a + 1)) :
    reconnectLoop env cfg (fuel + 1) a d =
      (WsEvent.onReconnectCalled a :: WsEvent.slept d :: WsEvent.sessionStarted a ::
          ((sessionChanOps (env.session a)).map WsEvent.chan
            ++ (reconnectLoop env cfg fuel (a + 1) (nextWsDelay cfg d)).1),
        (reconnectLoop env cfg fuel (a + 1) (nextWsDelay cfg d)).2) := by
  simp [reconnectLoop, h1a, hcb, hct, hcs, hret, hca, hcont]

theorem reconnectLoop_run {M E : Type} (env : ReconnectEnv M E) (cfg : WsConfig)
    (retv : Nat → SessionRet E)
    (hct : ∀ i, env.ctxTop i = false)
    (hcs : ∀ i, env.ctxSleep i = false)
    (hca : ∀ i, env.ctxAfter i = false)
    (hret : ∀ i, sessionReturn (env.session i) = some (retv i))
    (hcb : cfg.onReconnectSet = true) :
    ∀ (fuel a : Nat) (d : ℚ), 1 ≤ a → a < cfg.maxReconnectAttempts →
      cfg.maxReconnectAttempts - a ≤ fuel →
      sessionStarts (reconnectLoop env cfg fuel a d).1
        = List.range' a (cfg.maxReconnectAttempts - a) ∧
      onReconnectCalls (reconnectLoop env cfg fuel a d).1
        = List.range' a (cfg.maxReconnectAttempts - a) ∧
      chanTrace (reconnectLoop env cfg fuel a d).1
        = ((List.range' a (cfg.maxReconnectAttempts - a)).map
            (fun i => sessionChanOps (env.session i))).join ∧
      (reconnectLoop env cfg fuel a d).2
        = some (WsOutcome.maxAttemptsExceeded (retv (cfg.maxReconnectAttempts - 1))) := by
  intro fuel
  induction fuel with
  | zero => intro a d h1 h2 h3; omega
  | succ fuel ih =>
    intro a d h1a haN hfuel
    by_cases hexit : cfg.maxReconnectAttempts ≤ a + 1
    · have hNa : cfg.maxReconnectAttempts - a = 1 := by omega
      have hlast : cfg.maxReconnectAttempts - 1 = a := by omega
      rw [reconnectLoop_eq_exit_pos env cfg fuel a d (retv a) h1a hcb (hct a) (hcs a)
        (hret a) (hca a) ⟨by omega, hexit⟩, hNa, hlast]
      refine ⟨?_, ?_, ?_, rfl⟩
      · rw [sessionStarts_cons_onRec, sessionStarts_cons_slept,
          sessionStarts_cons_started, sessionStarts_map_chan, List.range'_one]
      · rw [onReconnectCalls_cons_onRec, onReconnectCalls_cons_slept,
          onReconnectCalls_cons_started, onReconnectCalls_map_chan, List.range'_one]
      · rw [chanTrace_cons_onRec, chanTrace_cons_slept, chanTrace_cons_started,
          chanTrace_map_chan, List.range'_one]
        simp
    · have hlt : a + 1 < cfg.maxReconnectAttempts := by omega
      obtain ⟨ihS, ihR, ihC, ihV⟩ :=
        ih (a + 1) (nextWsDelay cfg d) (by omega) (by omega) (by omega)
      rw [reconnectLoop_eq_cont_pos env cfg fuel a d (retv a) h1a hcb (hct a) (hcs a)
        (hret a) (hca a) (by omega)]
      have hsplit : cfg.maxReconnectAttempts - a
          = (cfg.maxReconnectAttempts - (a + 1)) + 1 := by omega
      rw [hsplit, List.range'_succ]
      refine ⟨?_, ?_, ?_, ihV⟩
      · rw [sessionStarts_cons_onRec, sessionStarts_cons_slept,
          sessionStarts_cons_started, sessionStarts_map_chan_append, ihS]
      · rw [onReconnectCalls_cons_onRec, onReconnectCalls_cons_slept,
          onReconnectCalls_cons_started, onReconnectCalls_map_chan_append, ihR]
      · rw [chanTrace_cons_onRec, chanTrace_cons_slept, chanTrace_cons_started,
          chanTrace_map_chan_append, ihC]
        simp

/-- A session whose dial always fails (used for concrete runs). -/
def cexFailSession : SessionEnv Unit Unit :=
  ⟨some (), [], (), [], fun _ => none⟩

/-- A supervisor environment where every session fails to dial and the
context never cancels. -/
def cexFailEnv : ReconnectEnv Unit Unit :=
  ⟨fun _ => cexFailSession, fun _ => false, fun _ => false, fun _ => false⟩

/-- Reconnection enabled, MaxReconnectAttempts = 5, OnReconnect set. -/
def cexCfg5 : WsConfig := ⟨true, 5, 1, 30, 2, true⟩

/-- A session that dials, decodes no message before its read fails, and whose
send channel is closed at once by the caller. -/
def cexOkSession : SessionEnv Unit Unit :=
  ⟨none, [], (), [SendEvent.chanClosed], fun _ => none⟩

/-- A supervisor environment of such sessions, never cancelled. -/
def cexOkEnv : ReconnectEnv Unit Unit :=
  ⟨fun _ => cexOkSession, fun _ => false, fun _ => false, fun _ => false⟩

/-- Reconnection enabled, MaxReconnectAttempts = 2, OnReconnect set. -/
def cexCfg2 : WsConfig := ⟨true, 2, 1, 30, 2, true⟩

/-- Claim C2 counterexample: with MaxReconnectAttempts = 5 and a dial that
always fails, the supervisor runs 5 sessions in total — the initial attempt
plus only 4 reconnection attempts, not 5 — and OnReconnect fires 4 times,
because the attempt counter also counts the initial session against the cap. -/
theorem wsReconnect_exhaustion_counts_cex :
    (sessionStarts (webSocketStreamWithReconnect cexFailEnv
      (some cexCfg5) 5).1).length = 5 ∧
    (onReconnectCalls (webSocketStreamWithReconnect cexFailEnv
      (some cexCfg5) 5).1).length = 4 ∧
    ¬ (onReconnectCalls (webSocketStreamWithReconnect cexFailEnv
      (some cexCfg5) 5).1).length = 5 := by
  decide

/-- Claim C2 (amended): with reconnection enabled, MaxReconnectAttempts = N
at least 1, OnReconnect set, no cancellation and a dial that always fails,
the supervisor runs exactly N sessions — the initial attempt plus N - 1
reconnection attempts (not N, because the attempt counter counts the initial
session against the cap) — OnReconnect fires exactly once per reconnection
attempt (at counter values 1 to N - 1) and never on the initial attempt, and
the call returns the exhaustion error wrapping the last session's dial
error. -/
theorem wsReconnect_exhaustion_counts {M E : Type} (env : ReconnectEnv M E)
    (cfg : WsConfig) (fuel : Nat) (dErr : Nat → E)
    (hAuto : cfg.autoReconnect = true)
    (hN : 1 ≤ cfg.maxReconnectAttempts)
    (hfuel : cfg.maxReconnectAttempts ≤ fuel)
    (hcb : cfg.onReconnectSet = true)
    (hct : ∀ i, env.ctxTop i = false)
    (hcs : ∀ i, env.ctxSleep i = false)
    (hca : ∀ i, env.ctxAfter i = false)
    (hfail : ∀ i, (env.session i).dialErr = some (dErr i)) :
    sessionStarts (webSocketStreamWithReconnect env (some cfg) fuel).1
      = List.range' 0 cfg.maxReconnectAttempts ∧
    onReconnectCalls (webSocketStreamWithReconnect env (some cfg) fuel).1
      = List.range' 1 (cfg.maxReconnectAttempts - 1) ∧
    (sessionStarts (webSocketStreamWithReconnect env (some cfg) fuel).1).length
      = cfg.maxReconnectAttempts ∧
    (onReconnectCalls (webSocketStreamWithReconnect env (some cfg) fuel).1).length
      = cfg.maxReconnectAttempts - 1 ∧
    (webSocketStreamWithReconnect env (some cfg) fuel).2
      = some (WsOutcome.maxAttemptsExceeded
          (SessionRet.dialFailed (dErr (cfg.maxReconnectAttempts - 1)))) := by
  have hret : ∀ i, sessionReturn (env.session i)
      = some (SessionRet.dialFailed (dErr i)) := by
    intro i
    simp [sessionReturn, hfail i]
  have hE : webSocketStreamWithReconnect env (some cfg) fuel
      = reconnectLoop env cfg fuel 0 cfg.reconnectDelay := by
    simp [webSocketStreamWithReconnect, hAuto]
  have hmain :
      sessionStarts (webSocketStreamWithReconnect env (some cfg) fuel).1
        = List.range' 0 cfg.maxReconnectAttempts ∧
      onReconnectCalls (webSocketStreamWithReconnect env (some cfg) fuel).1
        = List.range' 1 (cfg.maxReconnectAttempts - 1) ∧
      (webSocketStreamWithReconnect env (some cfg) fuel).2
        = some (WsOutcome.maxAttemptsExceeded
            (SessionRet.dialFailed (dErr (cfg.maxReconnectAttempts - 1)))) := by
    obtain ⟨f, rfl⟩ : ∃ f, fuel = f + 1 := ⟨fuel - 1, by omega⟩
    by_cases hone : cfg.maxReconnectAttempts ≤ 1
    · have h1 : cfg.maxReconnectAttempts = 1 := by omega
      rw [hE, reconnectLoop_eq_exit0 env cfg f cfg.reconnectDelay _ (hct 0)
        (hret 0) (hca 0) ⟨by omega, hone⟩, h1]
      refine ⟨?_, ?_, rfl⟩
      · rw [sessionStarts_cons_started, sessionStarts_map_chan, List.range'_one]
      · rw [onReconnectCalls_cons_started, onReconnectCalls_map_chan]
        rfl
    · obtain ⟨runS, runR, _, runV⟩ :=
        reconnectLoop_run env cfg (fun i => SessionRet.dialFailed (dErr i))
          hct hcs hca hret hcb f 1 cfg.reconnectDelay (by omega) (by omega) (by omega)
      rw [hE, reconnectLoop_eq_cont0 env cfg f cfg.reconnectDelay _ (hct 0)
        (hret 0) (hca 0) (by omega)]
      have hdecomp : List.range' 0 cfg.maxReconnectAttempts
          = 0 :: List.range' 1 (cfg.maxReconnectAttempts - 1) := by
        conv_lhs => rw [show cfg.maxReconnectAttempts
          = (cfg.maxReconnectAttempts - 1) + 1 from by omega]
        rw [List.range'_succ]
      refine ⟨?_, ?_, runV⟩
      · rw [sessionStarts_cons_started, sessionStarts_map_chan_append, runS, hdecomp]
      · rw [onReconnectCalls_cons_started, onReconnectCalls_map_chan_append, runR]
  refine ⟨hmain.1, hmain.2.1, ?_, ?_, hmain.2.2⟩
  · rw [hmain.1, List.length_range']
  · rw [hmain.2.1, List.length_range']

theorem wsReconnect_exhaustion_counts_witness :
    sessionStarts (webSocketStreamWithReconnect cexFailEnv (some cexCfg5) 5).1
      = List.range' 0 5 ∧
    onReconnectCalls (webSocketStreamWithReconnect cexFailEnv (some cexCfg5) 5).1
      = List.range' 1 4 ∧
    (sessionStarts (webSocketStreamWithReconnect cexFailEnv (some cexCfg5) 5).1).length = 5 ∧
    (onReconnectCalls (webSocketStreamWithReconnect cexFailEnv (some cexCfg5) 5).1).length = 4 ∧
    (webSocketStreamWithReconnect cexFailEnv (some cexCfg5) 5).2
      = some (WsOutcome.maxAttemptsExceeded (SessionRet.dialFailed ())) :=
  wsReconnect_exhaustion_counts cexFailEnv cexCfg5 5 (fun _ => ()) rfl
    (by decide) (by decide) rfl
    (fun _ => rfl) (fun _ => rfl) (fun _ => rfl) (fun _ => rfl)

/-- Claim C1 counterexample: a reconnect run of two sessions that both dial
and then fail reading publishes to the caller's receive channel after a
terminal event has already been published on it, and closes that channel
after the terminal event as well (each session's inbound goroutine closes
the shared channel through its deferred close). -/
theorem wsReconnect_sharedQueue_terminal_cex :
    writesAfterTerminal (chanTrace
      (webSocketStreamWithReconnect cexOkEnv (some cexCfg2) 2).1) = true ∧
    closesAfterTerminal (chanTrace
      (webSocketStreamWithReconnect cexOkEnv (some cexCfg2) 2).1) = true := by
  decide

/-- Claim C1 (amended): every reconnect attempt runs its session over the
same caller-provided channels and only the underlying connection is
replaced — the receive-channel operations of a reconnect-enabled run are
exactly the concatenation, session by session, of each session's inbound
operations — and within one session nothing is published after the terminal
event; however, the inbound loop closes the output queue right after
publishing its terminal event, and with at least two sessions the next
session publishes to (and re-closes) the queue after the previous session's
terminal event, so the queue is both written to and closed after a terminal
event. -/
theorem wsReconnect_sharedQueue_terminal {M E : Type} (env : ReconnectEnv M E)
    (cfg : WsConfig) (fuel : Nat) (retv : Nat → SessionRet E)
    (hAuto : cfg.autoReconnect = true)
    (hN : 2 ≤ cfg.maxReconnectAttempts)
    (hfuel : cfg.maxReconnectAttempts ≤ fuel)
    (hcb : cfg.onReconnectSet = true)
    (hct : ∀ i, env.ctxTop i = false)
    (hcs : ∀ i, env.ctxSleep i = false)
    (hca : ∀ i, env.ctxAfter i = false)
    (hdial : ∀ i, (env.session i).dialErr = none)
    (hret : ∀ i, sessionReturn (env.session i) = some (retv i)) :
    chanTrace (webSocketStreamWithReconnect env (some cfg) fuel).1
      = ((List.range' 0 cfg.maxReconnectAttempts).map
          (fun i => sessionChanOps (env.session i))).join ∧
    (∀ s : SessionEnv M E, writesAfterTerminal (sessionChanOps s) = false) ∧
    closesAfterTerminal (chanTrace
      (webSocketStreamWithReconnect env (some cfg) fuel).1) = true ∧
    writesAfterTerminal (chanTrace
      (webSocketStreamWithReconnect env (some cfg) fuel).1) = true := by
  have hE : webSocketStreamWithReconnect env (some cfg) fuel
      = reconnectLoop env cfg fuel 0 cfg.reconnectDelay := by
    simp [webSocketStreamWithReconnect, hAuto]
  obtain ⟨f, rfl⟩ : ∃ f, fuel = f + 1 := ⟨fuel - 1, by omega⟩
  obtain ⟨_, _, runC, _⟩ :=
    reconnectLoop_run env cfg retv hct hcs hca hret hcb f 1 cfg.reconnectDelay
      (by omega) (by omega) (by omega)
  have hjoin : chanTrace (webSocketStreamWithReconnect env (some cfg) (f + 1)).1
      = ((List.range' 0 cfg.maxReconnectAttempts).map
          (fun i => sessionChanOps (env.session i))).join := by
    rw [hE, reconnectLoop_eq_cont0 env cfg f cfg.reconnectDelay _ (hct 0)
      (hret 0) (hca 0) (by omega)]
    have hdecomp : List.range' 0 cfg.maxReconnectAttempts
        = 0 :: List.range' 1 (cfg.maxReconnectAttempts - 1) := by
      conv_lhs => rw [show cfg.maxReconnectAttempts
        = (cfg.maxReconnectAttempts - 1) + 1 from by omega]
      rw [List.range'_succ]
    rw [chanTrace_cons_started, chanTrace_map_chan_append, runC, hdecomp]
    simp
  have hsplit1 : List.range' 1 (cfg.maxReconnectAttempts - 1)
      = 1 :: List.range' 2 (cfg.maxReconnectAttempts - 2) := by
    conv_lhs => rw [show cfg.maxReconnectAttempts - 1
      = (cfg.maxReconnectAttempts - 2) + 1 from by omega]
    rw [List.range'_succ]
  have hdecomp : List.range' 0 cfg.maxReconnectAttempts
      = 0 :: List.range' 1 (cfg.maxReconnectAttempts - 1) := by
    conv_lhs => rw [show cfg.maxReconnectAttempts
      = (cfg.maxReconnectAttempts - 1) + 1 from by omega]
    rw [List.range'_succ]
  refine ⟨hjoin, fun s => writesAfterTerminal_sessionChanOps s, ?_, ?_⟩
  · rw [hjoin, hdecomp]
    simp only [List.map_cons, List.join_cons]
    exact closesAfterTerminal_append_left _ _
      (closesAfterTerminal_sessionChanOps (env.session 0) (hdial 0))
  · rw [hjoin, hdecomp]
    simp only [List.map_cons, List.join_cons]
    refine writesAfterTerminal_append_of _ _
      ⟨ChanOp.publish ⟨none, some (env.session 0).readErr, true⟩,
        terminal_mem_sessionChanOps (env.session 0) (hdial 0), rfl⟩ ?_
    rw [hsplit1]
    simp only [List.map_cons, List.join_cons]
    rw [anyPublish_append, anyPublish_sessionChanOps (env.session 1) (hdial 1)]
    rfl

theorem wsReconnect_sharedQueue_terminal_witness :
    chanTrace (webSocketStreamWithReconnect cexOkEnv (some cexCfg2) 2).1
      = ((List.range' 0 2).map
          (fun i => sessionChanOps (cexOkEnv.session i))).join ∧
    (∀ s : SessionEnv Unit Unit, writesAfterTerminal (sessionChanOps s) = false) ∧
    closesAfterTerminal (chanTrace
      (webSocketStreamWithReconnect cexOkEnv (some cexCfg2) 2).1) = true ∧
    writesAfterTerminal (chanTrace
      (webSocketStreamWithReconnect cexOkEnv (some cexCfg2) 2).1) = true :=
  wsReconnect_sharedQueue_terminal cexOkEnv cexCfg2 2 (fun _ => SessionRet.ok)
    rfl (by decide) (by decide) rfl
    (fun _ => rfl) (fun _ => rfl) (fun _ => rfl) (fun _ => rfl) (fun _ => rfl)

/-- Claim C8 counterexample: a session whose caller closes the send channel
immediately returns nil, yet an event carrying a non-nil error is published
on the output queue — the inbound loop's only exit path publishes an Error
event when the deferred connection close interrupts its read. -/
theorem wsStream_graceful_cex :
    (webSocketStream cexOkSession).2 = some SessionRet.ok ∧
    hasErrorEvent (webSocketStream cexOkSession).1 = true := by
  decide

/-- Claim C8 (amended): for a single WebSocketStream session in the Open
state, closing the input channel (after any items that all write
successfully) makes the outbound loop exit and the session return nil with
no error; however the session does emit an Error event on the output
queue — the inbound loop terminates only through a read error and publishes
it with Closed = true. -/
theorem wsStream_graceful_shutdown {M E : Type} (s : SessionEnv M E)
    (items : List M)
    (hd : s.dialErr = none)
    (hev : s.sendEvents = items.map SendEvent.item ++ [SendEvent.chanClosed])
    (hw : ∀ m ∈ items, s.writeErr m = none) :
    (webSocketStream s).2 = some SessionRet.ok ∧
    ChanOp.publish ⟨none, some s.readErr, true⟩ ∈ (webSocketStream s).1 ∧
    hasErrorEvent (webSocketStream s).1 = true := by
  refine ⟨?_, ?_, ?_⟩
  · show sessionReturn s = some SessionRet.ok
    rw [sessionReturn, hd, hev]
    exact outboundLoop_ok s.writeErr items hw
  · exact terminal_mem_sessionChanOps s hd
  · show hasErrorEvent (sessionChanOps s) = true
    rw [hasErrorEvent, List.any_eq_true]
    exact ⟨ChanOp.publish ⟨none, some s.readErr, true⟩,
      terminal_mem_sessionChanOps s hd, rfl⟩

theorem wsStream_graceful_shutdown_witness :
    (webSocketStream cexOkSession).2 = some SessionRet.ok ∧
    ChanOp.publish ⟨none, some (), true⟩ ∈ (webSocketStream cexOkSession).1 ∧
    hasErrorEvent (webSocketStream cexOkSession).1 = true :=
  wsStream_graceful_shutdown cexOkSession [] rfl rfl
    (fun m hm => absurd hm (List.not_mem_nil m))

end Reqws
